import Mathlib

/-!
Verification of the process-execution layer in `src/lib.rs` of the
`illumos` Rust crate.

The embedding models the crate's pure data transformations directly and
models its effectful parts (child processes, pipe reads, logging) by making
the external behaviour an explicit argument: a child process is described by
the list of read events each output stream will deliver, the result of
`wait`, and (in capture mode) the raw output bytes; the log sink is
modelled as the list of records the call emits.  Machine strings are Lean
`String`s, raw output bytes are `List Nat` (one entry per byte), and Rust's
`String::from_utf8` is embedded as an explicit UTF-8 decoder.
-/

set_option autoImplicit false
set_option linter.unusedVariables false

namespace Illumos

/-- Log levels used by the crate (`debug!`, `info!`, `error!`). -/
inductive LogLevel where
  | debug
  | info
  | error
  deriving DecidableEq, Repr

/-- One record emitted to the log sink: level, target, formatted text. -/
structure LogRecord where
  level : LogLevel
  target : String
  text : String
  deriving DecidableEq, Repr

/-- The code points with the Unicode White_Space property, the set
Rust's `char::is_whitespace` tests: the ASCII whitespace controls and
space, NEL, NBSP, Ogham space mark, the en/em quads and spaces through
hair space, line and paragraph separators, narrow no-break space, medium
mathematical space, and ideographic space. -/
def rustWhitespaceCodes : List Nat :=
  [0x09, 0x0A, 0x0B, 0x0C, 0x0D, 0x20, 0x85, 0xA0, 0x1680,
   0x2000, 0x2001, 0x2002, 0x2003, 0x2004, 0x2005, 0x2006, 0x2007,
   0x2008, 0x2009, 0x200A, 0x2028, 0x2029, 0x202F, 0x205F, 0x3000]

/-- Rust's `char::is_whitespace`: membership in the Unicode White_Space
set. -/
def rustIsWhitespace (c : Char) : Bool :=
  rustWhitespaceCodes.contains c.toNat

/-- Rust's `str::trim`: the string with leading and trailing White_Space
characters removed. Written over the character list so that it evaluates
by kernel reduction. -/
def strTrim (s : String) : String :=
  String.mk
    (((s.data.dropWhile rustIsWhitespace).reverse.dropWhile
        rustIsWhitespace).reverse)

/-- One event delivered by `BufReader::read_line` on a child stream:
either a full line (including its terminator, as `read_line` keeps it) or
an I/O error carrying its display text. End of the event list is EOF. -/
inductive ReadEvent where
  | line (s : String)
  | ioError (msg : String)
  deriving DecidableEq, Repr

/-- How a reader worker finished: normal EOF return, or
`std::process::exit` with the given code (which kills the whole host
process). -/
inductive ReaderOutcome where
  | eof
  | fatalExit (code : Nat)
  deriving DecidableEq, Repr

/-- The worker loop spawned by `spawn_reader` in `src/lib.rs`: read lines
until EOF, log each line that is non-empty after trimming as an info
record `"<name>| <line>"` with target `"illumos-rs"`, and on a read error
log an error record and exit the whole process with code 100. -/
def readerLoop (name : String) : List ReadEvent → List LogRecord × ReaderOutcome
  | [] => ([], ReaderOutcome.eof)
  | ReadEvent.line buf :: rest =>
      let s := strTrim buf
      let r := readerLoop name rest
      ((if s.isEmpty then [] else [⟨LogLevel.info, "illumos-rs", name ++ "| " ++ s⟩]) ++ r.1,
       r.2)
  | ReadEvent.ioError e :: _ =>
      ([⟨LogLevel.error, "illumos-rs", "failed to read " ++ name ++ ": " ++ e⟩],
       ReaderOutcome.fatalExit 100)

/-- `spawn_reader` from `src/lib.rs`: with no stream it does nothing and
returns no join handle; with a stream it runs the worker loop on that
stream's events. The returned value models the joined worker's effects. -/
def spawn_reader (name : String) (stream : Option (List ReadEvent)) :
    Option (List LogRecord × ReaderOutcome) :=
  stream.map (readerLoop name)

/-- The expected log output of a reader worker over a list of lines:
each line that is non-empty after trimming produces exactly one info
record tagged with the stream name; empty lines produce nothing. -/
def lineLogs (name : String) (ls : List String) : List LogRecord :=
  ls.filterMap fun l =>
    if (strTrim l).isEmpty then none
    else some ⟨LogLevel.info, "illumos-rs", name ++ "| " ++ strTrim l⟩

/-! ### Environment model

A `Command` records the program, the argument tail, and the ordered list
of environment operations applied to the inherited environment, exactly as
`std::process::Command` records `env_remove` / `envs` calls. -/

/-- One recorded environment operation on a `Command`. -/
inductive EnvOp where
  | remove (key : String)
  | set (key : String) (val : String)
  deriving DecidableEq, Repr

/-- The command descriptor produced by `build_cmd`. -/
structure Command where
  program : String
  args : List String
  envOps : List EnvOp
  deriving DecidableEq, Repr

/-- Apply one recorded environment operation to an environment, modelling
`std::process::Command` semantics: `remove` drops the key, `set` replaces
any binding of the key with the new value. -/
def applyEnvOp (m : List (String × String)) : EnvOp → List (String × String)
  | EnvOp.remove k => m.filter fun p => p.1 != k
  | EnvOp.set k v => (m.filter fun p => p.1 != k) ++ [(k, v)]

/-- The environment the child actually receives: the ambient (inherited)
environment with the recorded operations applied in order. -/
def childEnv (ambient : List (String × String)) (ops : List EnvOp) :
    List (String × String) :=
  ops.foldl applyEnvOp ambient

/-- First binding of a key in an environment. -/
def envLookup (m : List (String × String)) (k : String) : Option String :=
  (m.find? fun p => p.1 == k).map (·.2)

/-- The eight locale variables `build_cmd` removes unconditionally. -/
def localeVars : List String :=
  ["LANG", "LC_CTYPE", "LC_NUMERIC", "LC_TIME", "LC_COLLATE",
   "LC_MONETARY", "LC_MESSAGES", "LC_ALL"]

/-- `build_env` from `src/lib.rs`: converts the optional override slice,
entry by entry, into the form passed to `build_cmd` (an identity at this
level of modelling, as in the source it merely converts `S: AsRef<str>`
pairs to `&str` pairs). -/
def build_env (env : Option (List (String × String))) :
    Option (List (String × String)) :=
  match env with
  | some e => some (e.map fun p => (p.1, p.2))
  | none => none

/-- `build_cmd` from `src/lib.rs`: `Command::new(&args[0])` panics when
`args` is empty (index out of bounds), modelled as `none`; otherwise the
descriptor removes the eight locale variables, appends the argument tail,
and applies the caller's overrides after the removals. The `debug!`
diagnostic record of the final invocation is a log-only side effect with
no behavioural impact and is elided here. -/
def build_cmd (args : List String) (env : Option (List (String × String))) :
    Option Command :=
  match args with
  | [] => none
  | prog :: rest =>
      some
        { program := prog
          args := rest
          envOps :=
            localeVars.map EnvOp.remove ++
              (match env with
               | some e => e.map fun p => EnvOp.set p.1 p.2
               | none => []) }

/-- The environment operations each public runner records on its child's
command: all three runners call `build_cmd args (build_env env)`. Empty
`args` (where `build_cmd` panics) yields the empty list here. -/
def runChildEnvOps (args : List String)
    (env : Option (List (String × String))) : List EnvOp :=
  ((build_cmd args (build_env env)).map Command.envOps).getD []

/-! ### UTF-8 decoding

Embeds `String::from_utf8`: it succeeds exactly on valid UTF-8 and
returns the decoded text byte-for-byte, rejecting overlong encodings,
surrogates and out-of-range code points. -/

/-- Is a byte a UTF-8 continuation byte (`0x80..=0xBF`)? -/
def isContByte (b : Nat) : Bool := 0x80 ≤ b && b ≤ 0xBF

/-- Decode a UTF-8 byte sequence to a list of characters, or `none` when
the bytes are not valid UTF-8. -/
def utf8DecodeChars : List Nat → Option (List Char)
  | [] => some []
  | b :: rest =>
      if b ≤ 0x7F then
        (utf8DecodeChars rest).map (Char.ofNat b :: ·)
      else if b < 0xC2 then
        none
      else if b ≤ 0xDF then
        match rest with
        | b2 :: rest2 =>
            if isContByte b2 then
              (utf8DecodeChars rest2).map
                (Char.ofNat ((b - 0xC0) * 0x40 + (b2 - 0x80)) :: ·)
            else none
        | [] => none
      else if b ≤ 0xEF then
        match rest with
        | b2 :: b3 :: rest3 =>
            let lo2 := if b = 0xE0 then 0xA0 else 0x80
            let hi2 := if b = 0xED then 0x9F else 0xBF
            if (lo2 ≤ b2 && b2 ≤ hi2) && isContByte b3 then
              (utf8DecodeChars rest3).map
                (Char.ofNat
                  ((b - 0xE0) * 0x1000 + (b2 - 0x80) * 0x40 + (b3 - 0x80)) :: ·)
            else none
        | _ => none
      else if b ≤ 0xF4 then
        match rest with
        | b2 :: b3 :: b4 :: rest4 =>
            let lo2 := if b = 0xF0 then 0x90 else 0x80
            let hi2 := if b = 0xF4 then 0x8F else 0xBF
            if (lo2 ≤ b2 && b2 ≤ hi2) && (isContByte b3 && isContByte b4) then
              (utf8DecodeChars rest4).map
                (Char.ofNat
                  ((b - 0xF0) * 0x40000 + (b2 - 0x80) * 0x1000 +
                    (b3 - 0x80) * 0x40 + (b4 - 0x80)) :: ·)
            else none
        | _ => none
      else none

/-- `String::from_utf8` on a byte vector: the decoded string, or `none`
for invalid UTF-8 (the `FromUtf8Error` case). -/
def utf8Decode (bs : List Nat) : Option String :=
  (utf8DecodeChars bs).map String.mk

/-! ### Rust `Debug` formatting

The error messages the crate builds use `format!` with standard `Debug`
renderings of `Vec<&str>`, `&str` / `String`, and `ExitStatus`. -/

/-- One lowercase hex digit. -/
def hexDigit (n : Nat) : Char :=
  if n < 10 then Char.ofNat (48 + n) else Char.ofNat (87 + n)

/-- Minimal lowercase hex digits of `n` (at least one digit), as printed
by Rust's `escape_unicode`. The fuel argument makes the recursion
structural so that it evaluates by kernel reduction. -/
def hexDigitsAux : Nat → Nat → List Char
  | 0, _ => []
  | fuel + 1, n =>
      if n < 16 then [hexDigit n]
      else hexDigitsAux fuel (n / 16) ++ [hexDigit (n % 16)]

/-- Minimal lowercase hex rendering of a number. -/
def hexDigits (n : Nat) : List Char :=
  hexDigitsAux (n + 1) n

/-- Rust `Debug` escaping of one character inside a quoted string
literal, after `char::escape_debug_ext`: tab, carriage return, newline,
backslash and double quote get their two-character escapes; every other
ASCII control character (`NUL` and `DEL` included) is non-printable and
gets a minimal-digit unicode escape; printable characters stay literal.
This is exact for ASCII; characters from `U+0080` up are kept literal,
which matches Rust for printable, non-grapheme-extended characters (the
Unicode printability and grapheme-extension tables are not embedded, so
theorems about rendered message text restrict their strings to ASCII). -/
def rustEscapeChar (c : Char) : List Char :=
  if c = '\t' then ['\\', 't']
  else if c = '\r' then ['\\', 'r']
  else if c = '\n' then ['\\', 'n']
  else if c = '\\' then ['\\', '\\']
  else if c = '"' then ['\\', '"']
  else if c.toNat < 0x20 || c.toNat = 0x7F then
    ['\\', 'u', '\x7b'] ++ hexDigits c.toNat ++ ['\x7d']
  else [c]

/-- Rust `Debug` rendering of a `&str` / `String`: quoted and escaped. -/
def rustDebugStr (s : String) : String :=
  String.mk ('"' :: (s.data.flatMap rustEscapeChar) ++ ['"'])

/-- Rust `Debug` rendering of a `Vec<&str>`. -/
def rustDebugStrList (xs : List String) : String :=
  "[" ++ String.intercalate ", " (xs.map rustDebugStr) ++ "]"

/-- Rust `Debug` rendering of a `std::process::ExitStatus` for a child
that exited with the given exit code (the wait status is the code shifted
into the high byte on illumos, as on other unix targets). -/
def exitStatusDebug (code : Nat) : String :=
  "ExitStatus(unix_wait_status(" ++ toString (code * 256) ++ "))"

/-- A spawned child as seen by the streaming runners. `waitResult` is the
outcome of `Child::wait`: an OS error's display text, or the child's exit
code (`0` is success, matching `ExitStatus::success`). -/
structure Child where
  stdoutEvents : List ReadEvent
  stderrEvents : List ReadEvent
  waitResult : Except String Nat
  deriving Repr

/-- Outcome of `Command::spawn`: an OS error or a child. -/
inductive SpawnOutcome where
  | fail (msg : String)
  | ok (child : Child)
  deriving Repr

/-- `std::process::Output` as returned by `Command::output`. -/
structure CaptureOutput where
  status : Nat
  stdout : List Nat
  stderr : List Nat
  deriving DecidableEq, Repr

/-- Result of a public entry point: a value, an `anyhow` error message, a
whole-process `std::process::exit`, or a panic (index out of bounds in
`build_cmd` on an empty argument vector). -/
inductive ProcResult (α : Type) where
  | ok (a : α)
  | error (msg : String)
  | processExit (code : Nat)
  | panicked (msg : String)
  deriving DecidableEq, Repr

/-- The shared drain-then-wait skeleton of `run` and `run_with_stdin`:
join the stdout reader, then the stderr reader, then `wait`, and map a
non-zero exit status to the `exec {args}: failed {status}` error. A
reader that hit a read error has already exited the whole process. -/
def runCore (args : List String) (child : Child) :
    ProcResult Unit × List LogRecord :=
  let rdout := readerLoop "O" child.stdoutEvents
  match rdout.2 with
  | ReaderOutcome.fatalExit c => (ProcResult.processExit c, rdout.1)
  | ReaderOutcome.eof =>
      let rderr := readerLoop "E" child.stderrEvents
      match rderr.2 with
      | ReaderOutcome.fatalExit c => (ProcResult.processExit c, rdout.1 ++ rderr.1)
      | ReaderOutcome.eof =>
          match child.waitResult with
          | Except.error e => (ProcResult.error e, rdout.1 ++ rderr.1)
          | Except.ok es =>
              if es != 0 then
                (ProcResult.error
                  ("exec " ++ rustDebugStrList args ++ ": failed " ++
                    exitStatusDebug es),
                 rdout.1 ++ rderr.1)
              else (ProcResult.ok (), rdout.1 ++ rderr.1)

/-- `run` from `src/lib.rs`: stdin null, stdout and stderr piped and
drained by reader workers, readers joined before `wait`. The `spawn`
argument models the OS outcome of `Command::spawn`. -/
def run (args : List String) (env : Option (List (String × String)))
    (spawn : SpawnOutcome) : ProcResult Unit × List LogRecord :=
  match build_cmd args (build_env env) with
  | none => (ProcResult.panicked "index out of bounds", [])
  | some _ =>
      match spawn with
      | SpawnOutcome.fail e => (ProcResult.error e, [])
      | SpawnOutcome.ok child => runCore args child

/-- `run_with_stdin` from `src/lib.rs`: as `run`, but stdin is piped and
fed by a detached writer worker whose failures are not surfaced (so the
payload does not influence the modelled result beyond the child's own
behaviour, which is a parameter here). -/
def run_with_stdin (args : List String)
    (env : Option (List (String × String))) (stdin : String)
    (spawn : SpawnOutcome) : ProcResult Unit × List LogRecord :=
  match build_cmd args (build_env env) with
  | none => (ProcResult.panicked "index out of bounds", [])
  | some _ =>
      match spawn with
      | SpawnOutcome.fail e => (ProcResult.error e, [])
      | SpawnOutcome.ok child => runCore args child

/-- `run_capture_stdout` from `src/lib.rs`: run the child to completion
via `Command::output`; on success decode stdout as UTF-8 and return it
unmodified; on a non-zero status decode stderr and include it, with the
argument vector, in the error; a UTF-8 decode failure on either path is
an error. The decode-failure text stands in for `FromUtf8Error`'s
display, whose byte-and-index details are abstracted away: no theorem
below depends on that branch's message. -/
def run_capture_stdout (args : List String)
    (env : Option (List (String × String)))
    (output : Except String CaptureOutput) : ProcResult String :=
  match build_cmd args (build_env env) with
  | none => ProcResult.panicked "index out of bounds"
  | some _ =>
      match output with
      | Except.error e => ProcResult.error e
      | Except.ok o =>
          if o.status == 0 then
            match utf8Decode o.stdout with
            | some s => ProcResult.ok s
            | none => ProcResult.error "invalid utf-8 sequence"
          else
            match utf8Decode o.stderr with
            | some es =>
                ProcResult.error
                  ("exec " ++ rustDebugStrList args ++ ": failed " ++
                    rustDebugStr es)
            | none => ProcResult.error "invalid utf-8 sequence"

/-! ### The three command wrappers -/

/-- Fixed binary paths from `src/lib.rs`. -/
def SVCCFG_BIN : String := "/usr/sbin/svccfg"

/-- Fixed binary path of `svcprop`. -/
def SVCPROP_BIN : String := "/usr/bin/svcprop"

/-- Fixed binary path of `devprop`. -/
def DEVPROP_BIN : String := "/sbin/devprop"

/-- Split a character list at newline characters; every position between
two newlines, before the first and after the last yields one group. -/
def splitLinesAux : List Char → List (List Char)
  | [] => [[]]
  | ch :: rest =>
      match splitLinesAux rest with
      | [] => [[ch]]
      | g :: gs => if ch = '\n' then [] :: g :: gs else (ch :: g) :: gs

/-- Strip one trailing carriage return: the CR of a CRLF line
terminator, removed after the LF it preceded. -/
def stripCR (l : List Char) : List Char :=
  if l.getLast? = some '\r' then l.dropLast else l

/-- Rust's `str::lines`: lines are split at `\n` terminators, a `\r`
immediately preceding a `\n` is removed with it, and the final line
ending is optional. A `\r` is removed only as part of a `\r\n`
terminator, so an unterminated final line keeps a trailing `\r` (the
last line of `foo\r\nbar\n\nbaz\r` is `baz\r`). Lines before the final
part were all `\n`-terminated; the final part is `\n`-terminated exactly
when it is empty, in which case it yields no line. Written over the
character list so that it evaluates by kernel reduction. -/
def rustLines (s : String) : List String :=
  if s.isEmpty then []
  else
    let parts := splitLinesAux s.data
    let parts :=
      if parts.getLast? = some [] then parts.dropLast.map stripCR
      else parts.dropLast.map stripCR ++ [parts.getLast?.getD []]
    parts.map String.mk

/-- `devprop` from `src/lib.rs`: capture the stdout of
`/sbin/devprop <key>`; error unless the output splits into exactly one
line, naming the key and the observed line list; on exactly one line
return it trimmed. -/
def devprop (key : String) (output : Except String CaptureOutput) :
    ProcResult String :=
  match run_capture_stdout [DEVPROP_BIN, key] none output with
  | ProcResult.ok val =>
      match rustLines val with
      | [l] => ProcResult.ok (strTrim l)
      | ls =>
          ProcResult.error
            ("unexpected output for devprop " ++ key ++ ": " ++
              rustDebugStrList ls)
  | ProcResult.error e => ProcResult.error e
  | ProcResult.processExit c => ProcResult.processExit c
  | ProcResult.panicked m => ProcResult.panicked m

/-- `svcprop` from `src/lib.rs`: capture the stdout of
`/usr/bin/svcprop -p <prop_val> <fmri>`; error unless the output splits
into exactly one line, naming the FMRI and the observed line list; on
exactly one line return it trimmed. -/
def svcprop (fmri : String) (prop_val : String)
    (output : Except String CaptureOutput) : ProcResult String :=
  match run_capture_stdout [SVCPROP_BIN, "-p", prop_val, fmri] none output with
  | ProcResult.ok val =>
      match rustLines val with
      | [l] => ProcResult.ok (strTrim l)
      | ls =>
          ProcResult.error
            ("unexpected output for svcprop " ++ fmri ++ ": " ++
              rustDebugStrList ls)
  | ProcResult.error e => ProcResult.error e
  | ProcResult.processExit c => ProcResult.processExit c
  | ProcResult.panicked m => ProcResult.panicked m

/-- The five environment overrides `svccfg` derives from an alternate
installation root in `src/lib.rs`. -/
def svccfgAltRootEnv (alt_root : String) : List (String × String) :=
  [("SVCCFG_CHECKHASH", "1"),
   ("PKG_INSTALL_ROOT", alt_root),
   ("SVCCFG_DTD", alt_root ++ "/usr/share/lib/xml/dtd/service_bundle.dtd.1"),
   ("SVCCFG_REPOSITORY", alt_root ++ "/etc/svc/repository.db"),
   ("SVCCFG_CONFIGD_PATH", alt_root ++ "/lib/svc/bin/svc.configd")]

/-- `svccfg` from `src/lib.rs`: feed the newline-joined directives to
`/usr/sbin/svccfg` via `run_with_stdin`, with the five derived overrides
when an alternate root is supplied and no overrides otherwise. -/
def svccfg (args : List String) (alt_root : Option String)
    (spawn : SpawnOutcome) : ProcResult Unit × List LogRecord :=
  run_with_stdin [SVCCFG_BIN] (alt_root.map svccfgAltRootEnv)
    (String.join (args.map fun a => a ++ "\n")) spawn

/-! ### Control-flow traces of the streaming runners

`run` and `run_with_stdin` are straight-line code; the trace records, in
program order, the spawn, the stdin-writer spawn (in `run_with_stdin`),
each `join` on an attached reader worker (a join happens exactly when
`spawn_reader` returned a handle, i.e. the stream was present), and the
final `Child::wait` call. -/

/-- Events of the streaming runners' control flow. -/
inductive RunEvent where
  | spawnChild
  | spawnStdinWriter
  | joinReader (tag : String)
  | waitChild
  deriving DecidableEq, Repr

/-- The `if let Some(t) = handle ... t.join()` step: one join event when a
reader worker was attached, none otherwise. -/
def joinEvents (tag : String)
    (handle : Option (List LogRecord × ReaderOutcome)) : List RunEvent :=
  match handle with
  | some _ => [RunEvent.joinReader tag]
  | none => []

/-- Program-order trace of `run`: spawn, join the stdout reader, join the
stderr reader, wait. Both streams are piped, so both readers are
attached. -/
def runTrace (child : Child) : List RunEvent :=
  RunEvent.spawnChild ::
    (joinEvents "O" (spawn_reader "O" (some child.stdoutEvents)) ++
      joinEvents "E" (spawn_reader "E" (some child.stderrEvents)) ++
      [RunEvent.waitChild])

/-- Program-order trace of `run_with_stdin`: as `runTrace` with the
stdin-writer spawn after the child spawn. -/
def runWithStdinTrace (child : Child) : List RunEvent :=
  RunEvent.spawnChild :: RunEvent.spawnStdinWriter ::
    (joinEvents "O" (spawn_reader "O" (some child.stdoutEvents)) ++
      joinEvents "E" (spawn_reader "E" (some child.stderrEvents)) ++
      [RunEvent.waitChild])

/-- An environment has no binding for key `k`. -/
def noKey (k : String) (m : List (String × String)) : Prop :=
  ∀ p ∈ m, p.1 ≠ k

/-! ### Helper lemmas -/

theorem readerLoop_lines (name : String) (ls : List String) :
    readerLoop name (ls.map ReadEvent.line) =
      (lineLogs name ls, ReaderOutcome.eof) := by
  induction ls with
  | nil => rfl
  | cons l t ih =>
      simp [readerLoop, lineLogs, List.filterMap_cons, ih]
      by_cases h : (strTrim l).isEmpty <;> simp [h, lineLogs]

theorem readerLoop_append_lines (name : String) (ls : List String)
    (evs : List ReadEvent) :
    readerLoop name (ls.map ReadEvent.line ++ evs) =
      (lineLogs name ls ++ (readerLoop name evs).1, (readerLoop name evs).2) := by
  induction ls with
  | nil => simp [lineLogs]
  | cons l t ih =>
      simp [readerLoop, lineLogs, List.filterMap_cons, ih]
      by_cases h : (strTrim l).isEmpty <;> simp [h, lineLogs]

theorem noKey_filter (k : String) (m : List (String × String)) :
    noKey k (m.filter fun p => p.1 != k) := by
  intro p hp
  have := (List.mem_filter.mp hp).2
  simpa using this

theorem noKey_apply_remove_self (k : String) (m : List (String × String)) :
    noKey k (applyEnvOp m (EnvOp.remove k)) :=
  noKey_filter k m

theorem noKey_apply_preserve (k : String) (m : List (String × String))
    (op : EnvOp) (h : noKey k m)
    (hop : ∀ k' v, op = EnvOp.set k' v → k' ≠ k) :
    noKey k (applyEnvOp m op) := by
  cases op with
  | remove k' =>
      intro p hp
      exact h p (List.mem_filter.mp hp).1
  | set k' v =>
      intro p hp
      rcases List.mem_append.mp hp with h1 | h2
      · exact h p (List.mem_filter.mp h1).1
      · rcases List.mem_singleton.mp h2 with rfl
        exact hop k' v rfl

theorem noKey_foldl (k : String) (ops : List EnvOp) :
    ∀ m, noKey k m →
      (∀ op ∈ ops, ∀ k' v, op = EnvOp.set k' v → k' ≠ k) →
      noKey k (ops.foldl applyEnvOp m) := by
  induction ops with
  | nil => intro m h _; exact h
  | cons op t ih =>
      intro m h hops
      exact ih (applyEnvOp m op)
        (noKey_apply_preserve k m op h (hops op (List.mem_cons_self op t)))
        (fun o ho => hops o (List.mem_cons_of_mem op ho))

theorem noKey_removes (k : String) (ks : List String) :
    ∀ m, k ∈ ks → noKey k (List.foldl applyEnvOp m (ks.map EnvOp.remove)) := by
  induction ks with
  | nil => intro m h; cases h
  | cons a t ih =>
      intro m hk
      rcases List.mem_cons.mp hk with rfl | hk
      · simp only [List.map_cons, List.foldl_cons]
        exact noKey_foldl k (t.map EnvOp.remove) (applyEnvOp m (EnvOp.remove k))
          (noKey_apply_remove_self k m)
          (by
            intro op hop k' v hset
            rcases List.mem_map.mp hop with ⟨x, _, rfl⟩
            cases hset)
      · simp only [List.map_cons, List.foldl_cons]
        exact ih (applyEnvOp m (EnvOp.remove a)) hk

theorem getElem4 (a b c d : RunEvent) (i : Nat) (x : RunEvent)
    (h : [a, b, c, d][i]? = some x) :
    (i = 0 ∧ x = a) ∨ (i = 1 ∧ x = b) ∨ (i = 2 ∧ x = c) ∨ (i = 3 ∧ x = d) := by
  match i with
  | 0 => simp at h; exact Or.inl ⟨rfl, h.symm⟩
  | 1 => simp at h; exact Or.inr (Or.inl ⟨rfl, h.symm⟩)
  | 2 => simp at h; exact Or.inr (Or.inr (Or.inl ⟨rfl, h.symm⟩))
  | 3 => simp at h; exact Or.inr (Or.inr (Or.inr ⟨rfl, h.symm⟩))
  | n + 4 => simp at h

theorem getElem5 (a b c d e : RunEvent) (i : Nat) (x : RunEvent)
    (h : [a, b, c, d, e][i]? = some x) :
    (i = 0 ∧ x = a) ∨ (i = 1 ∧ x = b) ∨ (i = 2 ∧ x = c) ∨ (i = 3 ∧ x = d) ∨
      (i = 4 ∧ x = e) := by
  match i with
  | 0 => simp at h; exact Or.inl ⟨rfl, h.symm⟩
  | n + 1 =>
      rcases getElem4 b c d e n x (by simpa using h) with
        ⟨rfl, hx⟩ | ⟨rfl, hx⟩ | ⟨rfl, hx⟩ | ⟨rfl, hx⟩
      · exact Or.inr (Or.inl ⟨rfl, hx⟩)
      · exact Or.inr (Or.inr (Or.inl ⟨rfl, hx⟩))
      · exact Or.inr (Or.inr (Or.inr (Or.inl ⟨rfl, hx⟩)))
      · exact Or.inr (Or.inr (Or.inr (Or.inr ⟨rfl, hx⟩)))

/-! ### The claims -/

/-- Claim C1: in every invocation of `run` or `run_with_stdin`, every join
of an attached reader worker occurs strictly before the call to `wait` on
the child's exit status, in the program-order trace of the invocation. -/
theorem claim_c1_readers_join_before_exit_status (child : Child) :
    (∀ (i j : Nat) (t : String),
      (runTrace child)[i]? = some (RunEvent.joinReader t) →
      (runTrace child)[j]? = some RunEvent.waitChild → i < j) ∧
    (∀ (i j : Nat) (t : String),
      (runWithStdinTrace child)[i]? = some (RunEvent.joinReader t) →
      (runWithStdinTrace child)[j]? = some RunEvent.waitChild → i < j) := by
  have ht : runTrace child =
      [RunEvent.spawnChild, RunEvent.joinReader "O", RunEvent.joinReader "E",
        RunEvent.waitChild] := by
    simp [runTrace, joinEvents, spawn_reader]
  have hts : runWithStdinTrace child =
      [RunEvent.spawnChild, RunEvent.spawnStdinWriter, RunEvent.joinReader "O",
        RunEvent.joinReader "E", RunEvent.waitChild] := by
    simp [runWithStdinTrace, joinEvents, spawn_reader]
  constructor
  · intro i j t hi hj
    rw [ht] at hi hj
    rcases getElem4 _ _ _ _ _ _ hi with
        ⟨rfl, hx⟩ | ⟨rfl, hx⟩ | ⟨rfl, hx⟩ | ⟨rfl, hx⟩ <;>
      rcases getElem4 _ _ _ _ _ _ hj with
        ⟨rfl, hy⟩ | ⟨rfl, hy⟩ | ⟨rfl, hy⟩ | ⟨rfl, hy⟩ <;>
      first | omega | simp_all
  · intro i j t hi hj
    rw [hts] at hi hj
    rcases getElem5 _ _ _ _ _ _ _ hi with
        ⟨rfl, hx⟩ | ⟨rfl, hx⟩ | ⟨rfl, hx⟩ | ⟨rfl, hx⟩ | ⟨rfl, hx⟩ <;>
      rcases getElem5 _ _ _ _ _ _ _ hj with
        ⟨rfl, hy⟩ | ⟨rfl, hy⟩ | ⟨rfl, hy⟩ | ⟨rfl, hy⟩ | ⟨rfl, hy⟩ <;>
      first | omega | simp_all

/-- Witness for C1: in the concrete trace of `run` on a child with empty
streams, the stdout-reader join sits at index 1, the wait at index 3, and
the theorem yields 1 < 3. -/
theorem claim_c1_witness :
    (runTrace ⟨[], [], Except.ok 0⟩)[1]? = some (RunEvent.joinReader "O") ∧
    (runTrace ⟨[], [], Except.ok 0⟩)[3]? = some RunEvent.waitChild ∧
    (1 : Nat) < 3 :=
  ⟨by decide, by decide,
    (claim_c1_readers_join_before_exit_status ⟨[], [], Except.ok 0⟩).1 1 3 "O"
      (by decide) (by decide)⟩

/-- Claim C2: for any ambient environment, any caller overrides and any of
the eight locale variables not explicitly set by the overrides, the
child's environment (as built by `build_cmd` via `build_env`, shared by
`run`, `run_with_stdin` and `run_capture_stdout`) has no binding for that
variable. -/
theorem claim_c2_locale_vars_absent (ambient : List (String × String))
    (env : Option (List (String × String)))
    (prog : String) (args : List String) (k : String)
    (hk : k ∈ localeVars)
    (hov : ∀ p ∈ env.getD [], p.1 ≠ k) :
    ∀ p ∈ childEnv ambient (runChildEnvOps (prog :: args) env), p.1 ≠ k := by
  have hcmd : runChildEnvOps (prog :: args) env =
      localeVars.map EnvOp.remove ++
        (env.getD []).map fun p => EnvOp.set p.1 p.2 := by
    cases env <;> simp [runChildEnvOps, build_cmd, build_env]
  rw [hcmd]
  show noKey k _
  unfold childEnv
  rw [List.foldl_append]
  exact noKey_foldl k _ _ (noKey_removes k localeVars ambient hk)
    (by
      intro op hop k' v hset
      rcases List.mem_map.mp hop with ⟨x, hx, rfl⟩
      cases hset
      exact hov x hx)

/-- Witness for C2: an ambient environment carrying `LANG` and an
override set not mentioning it yield a child environment without any
`LANG` binding. -/
theorem claim_c2_witness :
    "LANG" ∈ localeVars ∧
    (∀ p ∈ childEnv [("LANG", "C"), ("HOME", "/r")]
        (runChildEnvOps ["p"] (some [("FOO", "1")])), p.1 ≠ "LANG") :=
  ⟨by decide,
    claim_c2_locale_vars_absent [("LANG", "C"), ("HOME", "/r")]
      (some [("FOO", "1")]) "p" [] "LANG" (by decide) (by decide)⟩

/-- Claim C3: when the child exits successfully and its stdout bytes
decode as UTF-8 to `s`, `run_capture_stdout` returns exactly `s`, with no
trimming or other modification. -/
theorem claim_c3_capture_returns_stdout_exactly (prog : String)
    (args : List String) (env : Option (List (String × String)))
    (outB errB : List Nat) (s : String)
    (hdec : utf8Decode outB = some s) :
    run_capture_stdout (prog :: args) env (Except.ok ⟨0, outB, errB⟩) =
      ProcResult.ok s := by
  cases env <;> simp [run_capture_stdout, build_cmd, build_env, hdec]

/-- Witness for C3: a child that printed `hello` and a newline and exited
0 makes `run_capture_stdout` return the six bytes decoded, trailing
newline included. -/
theorem claim_c3_witness :
    utf8Decode [104, 101, 108, 108, 111, 10] = some "hello\n" ∧
    run_capture_stdout ["/bin/sh"] none
        (Except.ok ⟨0, [104, 101, 108, 108, 111, 10], []⟩) =
      ProcResult.ok "hello\n" :=
  ⟨by decide,
    claim_c3_capture_returns_stdout_exactly "/bin/sh" [] none
      [104, 101, 108, 108, 111, 10] [] "hello\n" (by decide)⟩

/-- Claim C5: with an alternate root, `svccfg` derives exactly the five
documented overrides, each path joined from the root and a fixed suffix,
and for root `/a` the repository override is `/a/etc/svc/repository.db`;
the overrides are the ones `svccfg` hands to `run_with_stdin`. -/
theorem claim_c5_svccfg_alt_root_overrides : ∀ r : String,
    svccfgAltRootEnv r =
      [("SVCCFG_CHECKHASH", "1"),
       ("PKG_INSTALL_ROOT", r),
       ("SVCCFG_DTD", r ++ "/usr/share/lib/xml/dtd/service_bundle.dtd.1"),
       ("SVCCFG_REPOSITORY", r ++ "/etc/svc/repository.db"),
       ("SVCCFG_CONFIGD_PATH", r ++ "/lib/svc/bin/svc.configd")] ∧
    (svccfgAltRootEnv r).length = 5 ∧
    envLookup (svccfgAltRootEnv "/a") "SVCCFG_REPOSITORY" =
      some "/a/etc/svc/repository.db" ∧
    (∀ args spawn, svccfg args (some r) spawn =
      run_with_stdin [SVCCFG_BIN] (some (svccfgAltRootEnv r))
        (String.join (args.map fun a => a ++ "\n")) spawn) := by
  intro r
  refine ⟨rfl, rfl, ?_, fun args spawn => rfl⟩
  decide

/-- Claim C7: a reader worker that hits a read error logs it and
terminates the whole host process with exit code 100; an invocation whose
stdout stream errors yields a process exit, never an error result to the
caller. -/
theorem claim_c7_read_error_fatal_exit (name msg : String) (ls : List String)
    (rest : List ReadEvent) (prog : String) (argTail : List String)
    (env : Option (List (String × String))) (errEvents : List ReadEvent)
    (w : Except String Nat) :
    readerLoop name (ls.map ReadEvent.line ++ ReadEvent.ioError msg :: rest) =
      (lineLogs name ls ++
        [⟨LogLevel.error, "illumos-rs",
          "failed to read " ++ name ++ ": " ++ msg⟩],
       ReaderOutcome.fatalExit 100) ∧
    (run (prog :: argTail) env
        (SpawnOutcome.ok
          ⟨ls.map ReadEvent.line ++ ReadEvent.ioError msg :: rest, errEvents,
            w⟩)).1 =
      ProcResult.processExit 100 := by
  have h := readerLoop_append_lines name ls (ReadEvent.ioError msg :: rest)
  refine ⟨by simpa [readerLoop] using h, ?_⟩
  have h2 := readerLoop_append_lines "O" ls (ReadEvent.ioError msg :: rest)
  cases env <;> simp [run, build_cmd, build_env, runCore, h2, readerLoop]

/-- Claim C8: a reader worker over a list of read lines logs exactly the
lines that are non-empty after trimming, once each, as info records
tagged with the stream's name; in `run` the stdout lines carry tag `O`
and the stderr lines tag `E`. -/
theorem claim_c8_reader_line_logging (name : String)
    (ls outLs errLs : List String) (prog : String) (rest : List String)
    (env : Option (List (String × String))) (w : Except String Nat) :
    readerLoop name (ls.map ReadEvent.line) =
      (lineLogs name ls, ReaderOutcome.eof) ∧
    (run (prog :: rest) env
        (SpawnOutcome.ok
          ⟨outLs.map ReadEvent.line, errLs.map ReadEvent.line, w⟩)).2 =
      lineLogs "O" outLs ++ lineLogs "E" errLs := by
  refine ⟨readerLoop_lines name ls, ?_⟩
  cases env <;>
    simp only [run, build_cmd, build_env, runCore, readerLoop_lines] <;>
    cases w with
    | error e => simp
    | ok es => by_cases h : es = 0 <;> simp [h]

/-- Claim C9: for every program path, argument list and optional override
set, `build_cmd` together with `build_env` is a total pure
transformation: it produces the fully determined command descriptor and
never fails (the `none` case of `build_cmd` needs an argument vector with
no program at all, which the claim's quantification excludes). -/
theorem claim_c9_command_builder_total (prog : String) (args : List String)
    (env : Option (List (String × String))) :
    build_cmd (prog :: args) (build_env env) =
      some { program := prog, args := args,
             envOps := localeVars.map EnvOp.remove ++
               (env.getD []).map fun p => EnvOp.set p.1 p.2 } ∧
    build_env env = env := by
  cases env <;> simp [build_cmd, build_env]

/-- Claim C10: on success `devprop` and `svcprop` return the single
output line with surrounding whitespace trimmed, not the raw captured
line. -/
theorem claim_c10_single_line_trimmed (key fmri prop_val : String)
    (bytes : List Nat) (val l : String)
    (hdec : utf8Decode bytes = some val) (hl : rustLines val = [l]) :
    devprop key (Except.ok ⟨0, bytes, []⟩) = ProcResult.ok (strTrim l) ∧
    svcprop fmri prop_val (Except.ok ⟨0, bytes, []⟩) =
      ProcResult.ok (strTrim l) := by
  have hcapd :
      run_capture_stdout [DEVPROP_BIN, key] none (Except.ok ⟨0, bytes, []⟩) =
        ProcResult.ok val := by
    simp [run_capture_stdout, build_cmd, build_env, hdec]
  have hcaps :
      run_capture_stdout [SVCPROP_BIN, "-p", prop_val, fmri] none
          (Except.ok ⟨0, bytes, []⟩) =
        ProcResult.ok val := by
    simp [run_capture_stdout, build_cmd, build_env, hdec]
  exact ⟨by simp [devprop, hcapd, hl], by simp [svcprop, hcaps, hl]⟩

/-- Witness for C10: output `" x \n"` has the single raw line `" x "`,
and `devprop` returns it trimmed to `"x"`. -/
theorem claim_c10_witness :
    devprop "k" (Except.ok ⟨0, [32, 120, 32, 10], []⟩) = ProcResult.ok "x" :=
  (claim_c10_single_line_trimmed "k" "f" "p" [32, 120, 32, 10] " x \n" " x "
      (by decide) (by decide)).1

end Illumos
